import Mathlib

/-!
# Verification of the prompt-processing and output-serialization core

Shallow embedding of `src/main.py` of the `chatgpt_wordgen` repository:
the prompt source (`load_prompts`), the sequential completion loop of
`main` (lines 165-191), and the output writer (`save_responses`,
lines 101-135).  The external completion client is modelled as a pair of
oracles indexed by the call number: `ret i` is the string returned by the
`i`-th call of `client.get_response`, and `last i` is the value of
`client.last_response` observed right after that call.  A keyboard
interrupt is modelled by the index of the loop iteration at whose start
it is observed (the specification's §5 states that cancellation is
observed between loop iterations).
-/

namespace WordGen

/-- Modelled from the spec: the built-in default prompt list `PROMPTS`
imported from `prompts.py`, a file that is not part of the sources under
review.  The spec (§4.1) guarantees the built-in sequence contains no
blank strings; the concrete entries are taken from the spec's §8 example
prompts. -/
def PROMPTS : List String := ["What is 2+2?", "Name a color"]

/-- Leading-whitespace removal on a character list. -/
def dropLeadingWS : List Char → List Char
  | [] => []
  | c :: cs => if c.isWhitespace then dropLeadingWS cs else c :: cs

/-- Python's `str.strip()`: remove leading and trailing whitespace
(modelled as space, tab, CR and LF). -/
def pyStrip (s : String) : String :=
  String.mk ((dropLeadingWS (dropLeadingWS s.data).reverse).reverse)

/-- `load_prompts` (main.py lines 84-98).  A prompt file is modelled as
the list of its lines (each line may carry surrounding whitespace, e.g.
the trailing newline produced by iterating a Python file object).
With a file: keep the lines that are non-blank after stripping, stripped,
in file order (`[line.strip() for line in f if line.strip()]`).
Without a file: the built-in `PROMPTS` list, unchanged. -/
def load_prompts (prompt_file : Option (List String)) : List String :=
  match prompt_file with
  | some lines => (lines.filter (fun line => pyStrip line ≠ "")).map pyStrip
  | none => PROMPTS

/-- Content written to the destination file in `txt` format
(main.py lines 118-120): one `f.write` call per pair, in pair order. -/
def save_txt_content : List (String × String) → String
  | [] => ""
  | (prompt, response) :: rest =>
      "Prompt: " ++ prompt ++ "\nResponse: " ++ response ++ "\n\n"
        ++ save_txt_content rest

/-- Content written to the destination file in `md` format
(main.py lines 124-126): one `f.write` call per pair, in pair order. -/
def save_md_content : List (String × String) → String
  | [] => ""
  | (prompt, response) :: rest =>
      "## Prompt\n" ++ prompt ++ "\n\n### Response\n" ++ response ++ "\n\n"
        ++ save_md_content rest

/-- Text printed to standard output in `stdout` format
(main.py lines 130-131); `print` appends one extra newline per call. -/
def stdout_content : List (String × String) → String
  | [] => ""
  | (prompt, response) :: rest =>
      "## Prompt: " ++ prompt ++ "\n## Response: " ++ response ++ "\n\n"
        ++ stdout_content rest

/-- Observable effect of one `save_responses` call.  `file f c` stands
for opening `f` with mode `"w"` (truncating any existing file) and
writing exactly `c`; `docxFile f` is the delegated call
`save_responses_to_docx(pairs, filename=f)`; `unknownFormat v` is the
error branch, which logs `Unknown output format` and touches no file. -/
inductive SaveEffect where
  | docxFile : String → SaveEffect
  | file : String → String → SaveEffect
  | toStdout : String → SaveEffect
  | unknownFormat : String → SaveEffect
deriving DecidableEq

/-- `save_responses` (main.py lines 101-135): dispatch on the
`output_format` string, in source order of the `if`/`elif` chain. -/
def save_responses (pairs : List (String × String))
    (filename output_format : String) : SaveEffect :=
  if output_format = "docx" then .docxFile filename
  else if output_format = "txt" then .file filename (save_txt_content pairs)
  else if output_format = "md" then .file filename (save_md_content pairs)
  else if output_format = "stdout" then .toStdout (stdout_content pairs)
  else .unknownFormat output_format

/-- The prompt-processing loop of `main` (main.py lines 165-185),
returning the accumulated `prompt_response_pairs` (the RunResult).
`ret i` / `last i` model the client per call index `i`; `interruptAt`
models a `KeyboardInterrupt` observed at the start of iteration `i`:
the `except` handler ends the loop retaining the accumulated pairs.
On `ret i = "Success"` the pair `(prompt, last i)` is appended and the
loop continues; on any other return value the loop `break`s. -/
def main_loop (ret last : Nat → String) (interruptAt : Option Nat) :
    List String → Nat → List (String × String)
  | [], _ => []
  | prompt :: rest, i =>
      if interruptAt = some i then []
      else if ret i = "Success" then
        (prompt, last i) :: main_loop ret last interruptAt rest (i + 1)
      else []

/-- Number of `client.get_response` calls the loop performs
(same control flow as `main_loop`, projecting the call count):
one call per iteration reached, none after a `break` or interrupt. -/
def main_loop_calls (ret : Nat → String) (interruptAt : Option Nat) :
    List String → Nat → Nat
  | [], _ => 0
  | _ :: rest, i =>
      if interruptAt = some i then 0
      else if ret i = "Success" then
        1 + main_loop_calls ret interruptAt rest (i + 1)
      else 1

/-- Spec-side helper for the round-trip property: consume the exact
leading delimiter `pre` from `s`, returning the remainder, or `none`
when `s` does not start with `pre`. -/
def dropPref : List Char → List Char → Option (List Char)
  | [], s => some s
  | _ :: _, [] => none
  | c :: cs, d :: ds => if c = d then dropPref cs ds else none

/-- Spec-side helper: split `s` at its first newline, returning the
segment before it and the remainder after it. -/
def takeToNL : List Char → Option (List Char × List Char)
  | [] => none
  | c :: cs =>
      if c = '\n' then some ([], cs)
      else (takeToNL cs).map fun pr => (c :: pr.1, pr.2)

/-- Spec-side helper: split `s` at its first blank line (the two-newline
delimiter that the documented formats place after each response),
returning the segment before it and the remainder after it. -/
def takeToBlank : List Char → Option (List Char × List Char)
  | [] => none
  | c :: cs =>
      if c = '\n' ∧ cs.head? = some '\n' then some ([], cs.tail)
      else (takeToBlank cs).map fun pr => (c :: pr.1, pr.2)

/-- Spec-side parser for the documented `text` format: repeatedly read
`Prompt: `, the prompt up to the next newline, `Response: `, and the
response up to the next blank line.  `fuel` bounds the recursion; one
unit is spent per pair, so the input length is always enough. -/
def parseTxtAux (fuel : Nat) (s : List Char) :
    Option (List (List Char × List Char)) :=
  if s = [] then some []
  else
    match fuel with
    | 0 => none
    | fuel + 1 =>
        (dropPref "Prompt: ".data s).bind fun s1 =>
        (takeToNL s1).bind fun pr1 =>
        (dropPref "Response: ".data pr1.2).bind fun s3 =>
        (takeToBlank s3).bind fun pr2 =>
        (parseTxtAux fuel pr2.2).map fun rest => (pr1.1, pr2.1) :: rest

/-- Spec-side parser for the documented `markdown` format: repeatedly
read `## Prompt\n`, the prompt up to the next blank line,
`### Response\n`, and the response up to the next blank line. -/
def parseMdAux (fuel : Nat) (s : List Char) :
    Option (List (List Char × List Char)) :=
  if s = [] then some []
  else
    match fuel with
    | 0 => none
    | fuel + 1 =>
        (dropPref "## Prompt\n".data s).bind fun s1 =>
        (takeToBlank s1).bind fun pr1 =>
        (dropPref "### Response\n".data pr1.2).bind fun s3 =>
        (takeToBlank s3).bind fun pr2 =>
        (parseMdAux fuel pr2.2).map fun rest => (pr1.1, pr2.1) :: rest

/-- Re-parse a `text`-format file content by the documented delimiters. -/
def parseTxt (s : String) : Option (List (String × String)) :=
  (parseTxtAux s.data.length s.data).map
    (List.map fun pr => (String.mk pr.1, String.mk pr.2))

/-- Re-parse a `markdown`-format file content by the documented
delimiters. -/
def parseMd (s : String) : Option (List (String × String)) :=
  (parseMdAux s.data.length s.data).map
    (List.map fun pr => (String.mk pr.1, String.mk pr.2))

/-- Outcome of the tail of `main` (main.py lines 187-191). -/
inductive MainOutcome where
  | saved : SaveEffect → MainOutcome
  | warnedNoResponses : MainOutcome
deriving DecidableEq

/-- Tail of `main` (main.py lines 187-191): if the accumulated pair list
is non-empty, invoke `save_responses` on it; otherwise only log the
warning `No responses to save.` -/
def main_save_step (pairs : List (String × String))
    (output output_format : String) : MainOutcome :=
  if pairs = [] then .warnedNoResponses
  else .saved (save_responses pairs output output_format)

theorem main_loop_none_map_fst (ret last : Nat → String) :
    ∀ (prompts : List String) (k : Nat),
      (∀ j, j < prompts.length → ret (k + j) = "Success") →
      (main_loop ret last none prompts k).map Prod.fst = prompts := by
  intro prompts
  induction prompts with
  | nil => intro k _; rfl
  | cons p rest ih =>
      intro k h
      have h0 : ret k = "Success" := by simpa using h 0 (by simp)
      have hrest : ∀ j, j < rest.length → ret (k + 1 + j) = "Success" := by
        intro j hj
        rw [show k + 1 + j = k + (j + 1) by omega]
        exact h (j + 1) (by simpa using Nat.succ_lt_succ hj)
      simp [main_loop, h0, ih (k + 1) hrest]

theorem main_loop_none_fail_map_fst (ret last : Nat → String) :
    ∀ (prompts : List String) (k n : Nat),
      (∀ j, j < n → ret (k + j) = "Success") → ret (k + n) ≠ "Success" →
      n < prompts.length →
      (main_loop ret last none prompts k).map Prod.fst = prompts.take n := by
  intro prompts
  induction prompts with
  | nil => intro k n _ _ hn; simp at hn
  | cons p rest ih =>
      intro k n hs hf hn
      cases n with
      | zero =>
          have h0 : ret k ≠ "Success" := by simpa using hf
          simp [main_loop, h0]
      | succ m =>
          have h0 : ret k = "Success" := by simpa using hs 0 (Nat.succ_pos m)
          have hs' : ∀ j, j < m → ret (k + 1 + j) = "Success" := by
            intro j hj
            rw [show k + 1 + j = k + (j + 1) by omega]
            exact hs (j + 1) (by omega)
          have hf' : ret (k + 1 + m) ≠ "Success" := by
            rw [show k + 1 + m = k + (m + 1) by omega]; exact hf
          have hn' : m < rest.length := by simpa using hn
          simp [main_loop, h0, ih (k + 1) m hs' hf' hn']

theorem main_loop_calls_none_fail (ret : Nat → String) :
    ∀ (prompts : List String) (k n : Nat),
      (∀ j, j < n → ret (k + j) = "Success") → ret (k + n) ≠ "Success" →
      n < prompts.length →
      main_loop_calls ret none prompts k = n + 1 := by
  intro prompts
  induction prompts with
  | nil => intro k n _ _ hn; simp at hn
  | cons p rest ih =>
      intro k n hs hf hn
      cases n with
      | zero =>
          have h0 : ret k ≠ "Success" := by simpa using hf
          simp [main_loop_calls, h0]
      | succ m =>
          have h0 : ret k = "Success" := by simpa using hs 0 (Nat.succ_pos m)
          have hs' : ∀ j, j < m → ret (k + 1 + j) = "Success" := by
            intro j hj
            rw [show k + 1 + j = k + (j + 1) by omega]
            exact hs (j + 1) (by omega)
          have hf' : ret (k + 1 + m) ≠ "Success" := by
            rw [show k + 1 + m = k + (m + 1) by omega]; exact hf
          have hn' : m < rest.length := by simpa using hn
          simp [main_loop_calls, h0, ih (k + 1) m hs' hf' hn']
          omega

theorem main_loop_interrupt_map_fst (ret last : Nat → String) :
    ∀ (prompts : List String) (k n : Nat),
      (∀ j, j < n → ret (k + j) = "Success") →
      n < prompts.length →
      (main_loop ret last (some (k + n)) prompts k).map Prod.fst
        = prompts.take n := by
  intro prompts
  induction prompts with
  | nil => intro k n _ hn; simp at hn
  | cons p rest ih =>
      intro k n hs hn
      cases n with
      | zero => simp [main_loop]
      | succ m =>
          have hcond : ¬ ((some (k + (m + 1)) : Option Nat) = some k) := by
            simp
          have h0 : ret k = "Success" := by simpa using hs 0 (Nat.succ_pos m)
          have hs' : ∀ j, j < m → ret (k + 1 + j) = "Success" := by
            intro j hj
            rw [show k + 1 + j = k + (j + 1) by omega]
            exact hs (j + 1) (by omega)
          have hn' : m < rest.length := by simpa using hn
          have harg : k + (m + 1) = k + 1 + m := by omega
          have := ih (k + 1) m hs' hn'
          rw [harg] at hcond ⊢
          simp [main_loop, hcond, h0, this]

/-- C1: if the completion client reports success for every prompt, the
RunResult has one pair per input prompt and, pairwise in order, the
`i`-th pair's prompt is the `i`-th input prompt. -/
theorem c1_run_all_success (ret last : Nat → String) (prompts : List String)
    (h : ∀ i, i < prompts.length → ret i = "Success") :
    (main_loop ret last none prompts 0).length = prompts.length ∧
    (main_loop ret last none prompts 0).map Prod.fst = prompts := by
  have hm := main_loop_none_map_fst ret last prompts 0 (by simpa using h)
  refine ⟨?_, hm⟩
  simpa using congrArg List.length hm

theorem c1_witness :
    (main_loop (fun _ => "Success") (fun _ => "ok") none ["a", "b"] 0).length
        = ["a", "b"].length ∧
    (main_loop (fun _ => "Success") (fun _ => "ok") none ["a", "b"] 0).map
        Prod.fst = ["a", "b"] :=
  c1_run_all_success (fun _ => "Success") (fun _ => "ok") ["a", "b"]
    (fun _ _ => rfl)

/-- C2: if the first `n` completions succeed and the `(n+1)`-th fails,
the loop stops at the failure: the RunResult is exactly the first `n`
prompts paired in order, and exactly `n + 1` client calls are made (no
further prompt is attempted after the failing one). -/
theorem c2_run_fail_at (ret last : Nat → String) (prompts : List String)
    (n : Nat) (hs : ∀ i, i < n → ret i = "Success")
    (hf : ret n ≠ "Success") (hn : n < prompts.length) :
    (main_loop ret last none prompts 0).map Prod.fst = prompts.take n ∧
    (main_loop ret last none prompts 0).length = n ∧
    main_loop_calls ret none prompts 0 = n + 1 := by
  have hm := main_loop_none_fail_map_fst ret last prompts 0 n
    (by simpa using hs) (by simpa using hf) hn
  refine ⟨hm, ?_, ?_⟩
  · have := congrArg List.length hm
    simp [List.length_take] at this
    omega
  · exact main_loop_calls_none_fail ret prompts 0 n
      (by simpa using hs) (by simpa using hf) hn

theorem c2_witness :
    (∀ i, i < 1 → (fun j => if j = 0 then "Success" else "E") i = "Success") ∧
    ((fun j => if j = 0 then "Success" else "E") 1 ≠ "Success") ∧
    (1 < (["a", "b", "c"] : List String).length) ∧
    ((main_loop (fun j => if j = 0 then "Success" else "E") (fun _ => "ok")
        none ["a", "b", "c"] 0).map Prod.fst = ["a", "b", "c"].take 1 ∧
      (main_loop (fun j => if j = 0 then "Success" else "E") (fun _ => "ok")
        none ["a", "b", "c"] 0).length = 1 ∧
      main_loop_calls (fun j => if j = 0 then "Success" else "E") none
        ["a", "b", "c"] 0 = 1 + 1) :=
  ⟨by decide, by decide, by decide,
    c2_run_fail_at (fun j => if j = 0 then "Success" else "E") (fun _ => "ok")
      ["a", "b", "c"] 1 (by decide) (by decide) (by decide)⟩

/-- C3: if an interrupt is observed after `K` successful completions
(with prompts still remaining), the loop ends with exactly the first `K`
prompts paired in order — no failure pair for the in-flight prompt —
and when `K > 0` the retained pairs are still passed to the output
writer by the driver. -/
theorem c3_run_interrupted (ret last : Nat → String) (prompts : List String)
    (K : Nat) (out fmt : String)
    (hs : ∀ i, i < K → ret i = "Success") (hK : K < prompts.length) :
    (main_loop ret last (some K) prompts 0).map Prod.fst = prompts.take K ∧
    (main_loop ret last (some K) prompts 0).length = K ∧
    (0 < K →
      main_save_step (main_loop ret last (some K) prompts 0) out fmt
        = MainOutcome.saved
            (save_responses (main_loop ret last (some K) prompts 0) out fmt)) := by
  have hm := main_loop_interrupt_map_fst ret last prompts 0 K
    (by simpa using hs) hK
  rw [Nat.zero_add] at hm
  have hlen : (main_loop ret last (some K) prompts 0).length = K := by
    have := congrArg List.length hm
    simp [List.length_take] at this
    omega
  refine ⟨hm, hlen, ?_⟩
  intro hKpos
  have hne : main_loop ret last (some K) prompts 0 ≠ [] := by
    intro hnil
    rw [hnil] at hlen
    simp at hlen
    omega
  simp [main_save_step, hne]

theorem c3_witness :
    (∀ i, i < 1 → (fun _ => "Success") i = "Success") ∧
    (1 < (["a", "b"] : List String).length) ∧
    ((main_loop (fun _ => "Success") (fun _ => "ok") (some 1) ["a", "b"] 0).map
        Prod.fst = ["a", "b"].take 1 ∧
      (main_loop (fun _ => "Success") (fun _ => "ok") (some 1) ["a", "b"]
        0).length = 1 ∧
      (0 < 1 →
        main_save_step
            (main_loop (fun _ => "Success") (fun _ => "ok") (some 1) ["a", "b"] 0)
            "out.txt" "txt"
          = MainOutcome.saved
              (save_responses
                (main_loop (fun _ => "Success") (fun _ => "ok") (some 1)
                  ["a", "b"] 0) "out.txt" "txt"))) :=
  ⟨fun _ _ => rfl, by decide,
    c3_run_interrupted (fun _ => "Success") (fun _ => "ok") ["a", "b"] 1
      "out.txt" "txt" (fun _ _ => rfl) (by decide)⟩

/-- C9: with zero accumulated pairs the driver never invokes the output
writer; it only surfaces the `No responses to save.` warning. -/
theorem c9_empty_run_no_writer (output fmt : String) :
    main_save_step [] output fmt = MainOutcome.warnedNoResponses := rfl

/-- C10: one loop step treats a completion as successful exactly when
the client's return value is the literal string `Success`; any other
return value stops the run with no pair appended, and on success the
stored response text is the client's `last_response` value `last i`,
not the return value. -/
theorem c10_success_test (ret last : Nat → String) (p : String)
    (rest : List String) (i : Nat) :
    (ret i = "Success" →
      main_loop ret last none (p :: rest) i
        = (p, last i) :: main_loop ret last none rest (i + 1)) ∧
    (ret i ≠ "Success" → main_loop ret last none (p :: rest) i = []) := by
  constructor
  · intro h; simp [main_loop, h]
  · intro h; simp [main_loop, h]

theorem c10_witness :
    main_loop (fun _ => "Success") (fun _ => "resp") none ["a"] 0
        = ("a", (fun _ : Nat => "resp") 0)
            :: main_loop (fun _ => "Success") (fun _ => "resp") none [] 1 ∧
    main_loop (fun _ => "success") (fun _ => "resp") none ["a"] 0 = [] :=
  ⟨(c10_success_test (fun _ => "Success") (fun _ => "resp") "a" [] 0).1 rfl,
    (c10_success_test (fun _ => "success") (fun _ => "resp") "a" [] 0).2
      (by decide)⟩

theorem strip_filter_map_comm (lines : List String) :
    (lines.filter (fun line => pyStrip line ≠ "")).map pyStrip
      = (lines.map pyStrip).filter (fun line => line ≠ "") := by
  induction lines with
  | nil => rfl
  | cons l ls ih =>
      by_cases h : pyStrip l = ""
      · simp [List.filter_cons, h]
        simpa using ih
      · simp [List.filter_cons, h]
        simpa using ih

/-- C5: loading prompts from a file keeps exactly the whitespace-trimmed,
non-blank lines, in file order; in particular the lines
`["a", "", "  ", "b"]` load as `["a", "b"]`. -/
theorem c5_load_prompts_from_file (lines : List String) :
    load_prompts (some lines)
        = (lines.map pyStrip).filter (fun line => line ≠ "") ∧
    load_prompts (some ["a", "", "  ", "b"]) = ["a", "b"] := by
  constructor
  · simpa [load_prompts] using strip_filter_map_comm lines
  · decide

/-- C6: without a prompt file, `load_prompts` returns the built-in
default sequence unchanged, and that output contains no blank strings
(in particular no empty string), in declaration order. -/
theorem c6_load_prompts_default :
    load_prompts none = PROMPTS ∧
    ∀ p ∈ load_prompts none, pyStrip p ≠ "" ∧ p ≠ "" := by
  exact ⟨rfl, by decide⟩

/-- C7: on format `txt` the writer overwrites the destination with
exactly the block `Prompt: <p>\nResponse: <r>\n\n` per pair, and on
`md` with exactly `## Prompt\n<p>\n\n### Response\n<r>\n\n` per pair,
concatenated in pair order. -/
theorem c7_txt_md_formats (pairs : List (String × String)) (filename : String) :
    save_responses pairs filename "txt"
      = SaveEffect.file filename
          ((pairs.map fun pr =>
              "Prompt: " ++ pr.1 ++ "\nResponse: " ++ pr.2 ++ "\n\n").foldr
            (fun a b => a ++ b) "") ∧
    save_responses pairs filename "md"
      = SaveEffect.file filename
          ((pairs.map fun pr =>
              "## Prompt\n" ++ pr.1 ++ "\n\n### Response\n" ++ pr.2
                ++ "\n\n").foldr (fun a b => a ++ b) "") := by
  have htxt : ∀ ps : List (String × String),
      save_txt_content ps
        = (ps.map fun pr =>
            "Prompt: " ++ pr.1 ++ "\nResponse: " ++ pr.2 ++ "\n\n").foldr
          (fun a b => a ++ b) "" := by
    intro ps
    induction ps with
    | nil => rfl
    | cons pr rest ih => simp [save_txt_content, ih, String.append_assoc]
  have hmd : ∀ ps : List (String × String),
      save_md_content ps
        = (ps.map fun pr =>
            "## Prompt\n" ++ pr.1 ++ "\n\n### Response\n" ++ pr.2
              ++ "\n\n").foldr (fun a b => a ++ b) "" := by
    intro ps
    induction ps with
    | nil => rfl
    | cons pr rest ih => simp [save_md_content, ih, String.append_assoc]
  constructor
  · simp [save_responses, htxt pairs]
  · simp [save_responses, hmd pairs]

/-- C8: any output-format value other than the four recognized ones
takes the error branch: the writer returns the logged-error effect, so
no destination file is created or modified, and no exception is
raised. -/
theorem c8_unknown_format (pairs : List (String × String))
    (filename fmt : String)
    (h : fmt ≠ "docx" ∧ fmt ≠ "txt" ∧ fmt ≠ "md" ∧ fmt ≠ "stdout") :
    save_responses pairs filename fmt = SaveEffect.unknownFormat fmt := by
  simp [save_responses, h.1, h.2.1, h.2.2.1, h.2.2.2]

theorem c8_witness :
    (("pdf" : String) ≠ "docx" ∧ ("pdf" : String) ≠ "txt" ∧
      ("pdf" : String) ≠ "md" ∧ ("pdf" : String) ≠ "stdout") ∧
    save_responses [("p", "r")] "output.docx" "pdf"
      = SaveEffect.unknownFormat "pdf" :=
  ⟨by decide,
    c8_unknown_format [("p", "r")] "output.docx" "pdf" (by decide)⟩

theorem optBind_some (a : α) (f : α → Option β) : (some a).bind f = f a := rfl

theorem optMap_some (a : α) (f : α → β) : (some a).map f = some (f a) := rfl

theorem dropPref_append (pre s : List Char) : dropPref pre (pre ++ s) = some s := by
  induction pre with
  | nil => rfl
  | cons c cs ih => simp [dropPref, ih]

theorem takeToNL_append (p x : List Char) (hp : '\n' ∉ p) :
    takeToNL (p ++ '\n' :: x) = some (p, x) := by
  induction p with
  | nil => simp [takeToNL]
  | cons c cs ih =>
      have hc : c ≠ '\n' := fun hEq => hp (hEq ▸ List.mem_cons_self c cs)
      have hcs : '\n' ∉ cs := fun hmem => hp (List.mem_cons_of_mem c hmem)
      simp [takeToNL, hc, ih hcs]

theorem takeToBlank_append (r x : List Char) (hr : '\n' ∉ r) :
    takeToBlank (r ++ '\n' :: '\n' :: x) = some (r, x) := by
  induction r with
  | nil => simp [takeToBlank]
  | cons c cs ih =>
      have hc : c ≠ '\n' := fun hEq => hr (hEq ▸ List.mem_cons_self c cs)
      have hcs : '\n' ∉ cs := fun hmem => hr (List.mem_cons_of_mem c hmem)
      simp [takeToBlank, hc, ih hcs]

theorem parseTxtAux_succ (f : Nat) (s : List Char) (hs : s ≠ []) :
    parseTxtAux (f + 1) s
      = (dropPref "Prompt: ".data s).bind fun s1 =>
        (takeToNL s1).bind fun pr1 =>
        (dropPref "Response: ".data pr1.2).bind fun s3 =>
        (takeToBlank s3).bind fun pr2 =>
        (parseTxtAux f pr2.2).map fun rest => (pr1.1, pr2.1) :: rest := by
  conv_lhs => rw [parseTxtAux.eq_def]
  rw [if_neg hs]

theorem parseMdAux_succ (f : Nat) (s : List Char) (hs : s ≠ []) :
    parseMdAux (f + 1) s
      = (dropPref "## Prompt\n".data s).bind fun s1 =>
        (takeToBlank s1).bind fun pr1 =>
        (dropPref "### Response\n".data pr1.2).bind fun s3 =>
        (takeToBlank s3).bind fun pr2 =>
        (parseMdAux f pr2.2).map fun rest => (pr1.1, pr2.1) :: rest := by
  conv_lhs => rw [parseMdAux.eq_def]
  rw [if_neg hs]

theorem save_txt_content_cons_data (p r : String)
    (rest : List (String × String)) :
    (save_txt_content ((p, r) :: rest)).data
      = "Prompt: ".data ++ (p.data ++ ('\n' :: ("Response: ".data
          ++ (r.data ++ ('\n' :: '\n' :: (save_txt_content rest).data))))) := by
  show ("Prompt: " ++ p ++ "\nResponse: " ++ r ++ "\n\n"
      ++ save_txt_content rest).data = _
  simp [String.data_append]

theorem save_md_content_cons_data (p r : String)
    (rest : List (String × String)) :
    (save_md_content ((p, r) :: rest)).data
      = "## Prompt\n".data ++ (p.data ++ ('\n' :: '\n' :: ("### Response\n".data
          ++ (r.data ++ ('\n' :: '\n' :: (save_md_content rest).data))))) := by
  show ("## Prompt\n" ++ p ++ "\n\n### Response\n" ++ r ++ "\n\n"
      ++ save_md_content rest).data = _
  simp [String.data_append]

theorem parseTxtAux_roundtrip :
    ∀ (pairs : List (String × String)) (fuel : Nat),
      (∀ pr ∈ pairs, '\n' ∉ pr.1.data ∧ '\n' ∉ pr.2.data) →
      (save_txt_content pairs).data.length ≤ fuel →
      parseTxtAux fuel (save_txt_content pairs).data
        = some (pairs.map fun pr => (pr.1.data, pr.2.data)) := by
  intro pairs
  induction pairs with
  | nil =>
      intro fuel _ _
      rw [show (save_txt_content []).data = [] from rfl, parseTxtAux.eq_def]
      simp
  | cons pr rest ih =>
      intro fuel h hfuel
      obtain ⟨p, r⟩ := pr
      have hp : '\n' ∉ p.data := (h (p, r) (List.mem_cons_self _ _)).1
      have hr : '\n' ∉ r.data := (h (p, r) (List.mem_cons_self _ _)).2
      have hrest : ∀ q ∈ rest, '\n' ∉ q.1.data ∧ '\n' ∉ q.2.data :=
        fun q hq => h q (List.mem_cons_of_mem _ hq)
      have hdata := save_txt_content_cons_data p r rest
      have hlen : (save_txt_content rest).data.length + 21
          ≤ (save_txt_content ((p, r) :: rest)).data.length := by
        rw [hdata]
        have h1 : ("Prompt: ".data).length = 8 := rfl
        have h2 : ("Response: ".data).length = 10 := rfl
        simp [List.length_append, h1, h2]
        omega
      cases fuel with
      | zero => omega
      | succ f =>
          have hflen : (save_txt_content rest).data.length ≤ f := by omega
          have hne : "Prompt: ".data ++ (p.data ++ ('\n' :: ("Response: ".data
              ++ (r.data ++ ('\n' :: '\n'
                :: (save_txt_content rest).data))))) ≠ [] := by
            have hshape : "Prompt: ".data ++ (p.data ++ ('\n'
                :: ("Response: ".data ++ (r.data ++ ('\n' :: '\n'
                  :: (save_txt_content rest).data)))))
                = 'P' :: ("rompt: ".data ++ (p.data ++ ('\n'
                  :: ("Response: ".data ++ (r.data ++ ('\n' :: '\n'
                    :: (save_txt_content rest).data)))))) := rfl
            rw [hshape]
            exact List.cons_ne_nil _ _
          rw [hdata, parseTxtAux_succ f _ hne, dropPref_append, optBind_some,
            takeToNL_append p.data _ hp, optBind_some, dropPref_append,
            optBind_some, takeToBlank_append r.data _ hr, optBind_some,
            ih f hrest hflen, optMap_some, List.map_cons]

theorem parseMdAux_roundtrip :
    ∀ (pairs : List (String × String)) (fuel : Nat),
      (∀ pr ∈ pairs, '\n' ∉ pr.1.data ∧ '\n' ∉ pr.2.data) →
      (save_md_content pairs).data.length ≤ fuel →
      parseMdAux fuel (save_md_content pairs).data
        = some (pairs.map fun pr => (pr.1.data, pr.2.data)) := by
  intro pairs
  induction pairs with
  | nil =>
      intro fuel _ _
      rw [show (save_md_content []).data = [] from rfl, parseMdAux.eq_def]
      simp
  | cons pr rest ih =>
      intro fuel h hfuel
      obtain ⟨p, r⟩ := pr
      have hp : '\n' ∉ p.data := (h (p, r) (List.mem_cons_self _ _)).1
      have hr : '\n' ∉ r.data := (h (p, r) (List.mem_cons_self _ _)).2
      have hrest : ∀ q ∈ rest, '\n' ∉ q.1.data ∧ '\n' ∉ q.2.data :=
        fun q hq => h q (List.mem_cons_of_mem _ hq)
      have hdata := save_md_content_cons_data p r rest
      have hlen : (save_md_content rest).data.length + 27
          ≤ (save_md_content ((p, r) :: rest)).data.length := by
        rw [hdata]
        have h1 : ("## Prompt\n".data).length = 10 := rfl
        have h2 : ("### Response\n".data).length = 13 := rfl
        simp [List.length_append, h1, h2]
        omega
      cases fuel with
      | zero => omega
      | succ f =>
          have hflen : (save_md_content rest).data.length ≤ f := by omega
          have hne : "## Prompt\n".data ++ (p.data ++ ('\n' :: '\n'
              :: ("### Response\n".data ++ (r.data ++ ('\n' :: '\n'
                :: (save_md_content rest).data))))) ≠ [] := by
            have hshape : "## Prompt\n".data ++ (p.data ++ ('\n' :: '\n'
                :: ("### Response\n".data ++ (r.data ++ ('\n' :: '\n'
                  :: (save_md_content rest).data)))))
                = '#' :: ("# Prompt\n".data ++ (p.data ++ ('\n' :: '\n'
                  :: ("### Response\n".data ++ (r.data ++ ('\n' :: '\n'
                    :: (save_md_content rest).data)))))) := rfl
            rw [hshape]
            exact List.cons_ne_nil _ _
          rw [hdata, parseMdAux_succ f _ hne, dropPref_append, optBind_some,
            takeToBlank_append p.data _ hp, optBind_some, dropPref_append,
            optBind_some, takeToBlank_append r.data _ hr, optBind_some,
            ih f hrest hflen, optMap_some, List.map_cons]

theorem mk_data_map_cancel (l : List (String × String)) :
    ((l.map fun pr => (pr.1.data, pr.2.data)).map
        fun pr => (String.mk pr.1, String.mk pr.2)) = l := by
  induction l with
  | nil => rfl
  | cons x xs ih =>
      simp only [List.map_cons]
      exact congrArg (List.cons x) ih

/-- C4 fails as stated: for arbitrary contents the serialization is not
even injective, so no re-parsing by the documented delimiters can
recover the originals.  Two distinct pair lists collide in `text`
format, two distinct pair lists collide in `markdown` format, and the
delimiter parser applied to the first colliding `text` output returns
the other pair list. -/
theorem c4_counterexample :
    save_txt_content [("A\nResponse: B", "C")]
        = save_txt_content [("A", "B\nResponse: C")] ∧
    ([("A\nResponse: B", "C")] : List (String × String))
        ≠ [("A", "B\nResponse: C")] ∧
    save_md_content [("A\n\n### Response\nB", "C")]
        = save_md_content [("A", "B\n\n### Response\nC")] ∧
    ([("A\n\n### Response\nB", "C")] : List (String × String))
        ≠ [("A", "B\n\n### Response\nC")] ∧
    parseTxt (save_txt_content [("A\nResponse: B", "C")])
        ≠ some [("A\nResponse: B", "C")] := by
  exact ⟨by decide, by decide, by decide, by decide, by decide⟩

/-- C4 (amended): for every sequence of pairs whose prompts and
responses contain no newline character, writing in `text` or `markdown`
format and re-parsing by the documented delimiters recovers the
original pairs exactly. -/
theorem c4_roundtrip_no_newline (pairs : List (String × String))
    (h : ∀ pr ∈ pairs, '\n' ∉ pr.1.data ∧ '\n' ∉ pr.2.data) :
    parseTxt (save_txt_content pairs) = some pairs ∧
    parseMd (save_md_content pairs) = some pairs := by
  constructor
  · show (parseTxtAux (save_txt_content pairs).data.length
        (save_txt_content pairs).data).map
        (List.map fun pr => (String.mk pr.1, String.mk pr.2)) = some pairs
    rw [parseTxtAux_roundtrip pairs _ h (Nat.le_refl _), optMap_some,
      mk_data_map_cancel]
  · show (parseMdAux (save_md_content pairs).data.length
        (save_md_content pairs).data).map
        (List.map fun pr => (String.mk pr.1, String.mk pr.2)) = some pairs
    rw [parseMdAux_roundtrip pairs _ h (Nat.le_refl _), optMap_some,
      mk_data_map_cancel]

theorem c4_roundtrip_witness :
    (∀ pr ∈ ([("What is 2+2?", "4"), ("Name a color", "Blue")] :
        List (String × String)), '\n' ∉ pr.1.data ∧ '\n' ∉ pr.2.data) ∧
    (parseTxt (save_txt_content [("What is 2+2?", "4"), ("Name a color", "Blue")])
        = some [("What is 2+2?", "4"), ("Name a color", "Blue")] ∧
      parseMd (save_md_content [("What is 2+2?", "4"), ("Name a color", "Blue")])
        = some [("What is 2+2?", "4"), ("Name a color", "Blue")]) :=
  ⟨by decide,
    c4_roundtrip_no_newline [("What is 2+2?", "4"), ("Name a color", "Blue")]
      (by decide)⟩

end WordGen
